import Mathlib

/-!
Verification development for the Nexus Forum backend (`src/server.js`).

The relational store (Postgres tables created in `initDB`) is embedded as a
`DB` record of row lists plus the serial-sequence counters.  Each HTTP
handler of `server.js` becomes a Lean function from the request inputs and
the current store to a response together with the successor store.  SQL
statements are translated one by one: `SELECT ... WHERE` becomes
`List.find?`/`List.filter`, `UPDATE ... WHERE` becomes `List.map` guarded on
the `WHERE` predicate, `INSERT` appends a row after checking the foreign-key
and uniqueness constraints declared in the schema (a violated constraint
raises, and the catch of the handler turns that into the error status seen in the
source).  Timestamps (`CURRENT_TIMESTAMP`) are modelled by an explicit
`now : Nat` argument.  `bcrypt` hashing is modelled by an injective tagging
function, and `jwt.sign` by a record of the signed payload.
-/

namespace NexusForum

/-- JavaScript `x || d` applied to a possibly-absent numeric field: `null`,
`undefined` and `0` are falsy, every other number is truthy. -/
def jsOr (x : Option Nat) (d : Nat) : Nat :=
  match x with
  | none => d
  | some 0 => d
  | some n => n

/-- Model of `bcrypt.hash`: an injective tag of the plaintext.  The salt is
irrelevant to the control flow of the server, which only ever feeds hashes
back into `bcrypt.compare`. -/
def bcryptHash (password : String) : String :=
  "bcrypt$" ++ password

/-- Model of `bcrypt.compare`: succeeds exactly when the stored hash was
produced from this plaintext. -/
def bcryptCompare (password hash : String) : Bool :=
  hash == bcryptHash password

/-- Model of `jwt.sign` with payload id and username, secret and 7-day
expiry: the signed token is determined by the payload. -/
structure Token where
  id : Nat
  username : String
deriving DecidableEq

def jwtSign (id : Nat) (username : String) : Token :=
  ⟨id, username⟩

/-- Row of the `users` table. -/
structure UserRow where
  id : Nat
  username : String
  email : String
  password_hash : String
  avatar_url : Option String
  bio : Option String
  created_at : Nat
  last_seen : Nat
deriving DecidableEq

/-- Row of the `categories` table.  Note the schema declares no unique
constraint besides the serial primary key `id`. -/
structure CategoryRow where
  id : Nat
  name : String
  description : Option String
  color : String
  icon : Option String
  created_at : Nat
deriving DecidableEq

/-- Row of the `topics` table. -/
structure TopicRow where
  id : Nat
  title : String
  content : String
  user_id : Nat
  category_id : Option Nat
  views : Nat
  is_pinned : Bool
  is_locked : Bool
  created_at : Nat
  updated_at : Nat
deriving DecidableEq

/-- Row of the `posts` table; `likes` is the denormalized counter column
(SQL `INTEGER`, so an integer that the code decrements blindly). -/
structure PostRow where
  id : Nat
  content : String
  topic_id : Option Nat
  user_id : Nat
  parent_id : Option Nat
  likes : Int
  created_at : Nat
  updated_at : Nat
deriving DecidableEq

/-- Row of the `likes` table, subject to `UNIQUE(user_id, post_id)`. -/
structure LikeRow where
  id : Nat
  user_id : Nat
  post_id : Nat
  created_at : Nat
deriving DecidableEq

/-- The relational store: the five tables plus the serial sequences. -/
structure DB where
  users : List UserRow
  categories : List CategoryRow
  topics : List TopicRow
  posts : List PostRow
  likes : List LikeRow
  nextUserId : Nat
  nextCategoryId : Nat
  nextTopicId : Nat
  nextPostId : Nat
  nextLikeId : Nat
deriving DecidableEq

/-- A store with all tables empty and every serial sequence at 1, the state
right after `CREATE TABLE` on a fresh database. -/
def emptyDB : DB :=
  ⟨[], [], [], [], [], 1, 1, 1, 1, 1⟩

/-- Outcome of a request handler: `res.json(v)` (HTTP 200) or
`res.status(s).json(message)`. -/
inductive ApiResult (α : Type) where
  | ok (value : α)
  | err (status : Nat) (message : String)
deriving DecidableEq

/-- HTTP status of a handler outcome; `res.json` without `status` is 200. -/
def ApiResult.httpStatus : ApiResult α → Nat
  | .ok _ => 200
  | .err s _ => s

/-- One seeded category insert of `initDB`.  The statement carries
`ON CONFLICT DO NOTHING` with no conflict target, so it is skipped only when
the new row violates some unique constraint of `categories`; the only such
constraint is the primary key on `id`, and the serial sequence supplies the
id, so in reachable states the insert always happens. -/
def insertCategorySeed (db : DB) (name description color icon : String) (now : Nat) : DB :=
  if db.categories.any (fun c => c.id == db.nextCategoryId) then
    { db with nextCategoryId := db.nextCategoryId + 1 }
  else
    { db with
      categories := db.categories ++
        [⟨db.nextCategoryId, name, some description, color, some icon, now⟩],
      nextCategoryId := db.nextCategoryId + 1 }

/-- Model of `initDB` from `server.js`: `CREATE TABLE IF NOT EXISTS` leaves
existing tables as they are; then the four default categories are inserted
with `ON CONFLICT DO NOTHING` (see `insertCategorySeed`), and the admin user
is inserted with `ON CONFLICT (username) DO NOTHING`, i.e. skipped exactly
when a user named admin already exists. -/
def initDB (db : DB) (now : Nat) : DB :=
  let db1 := insertCategorySeed db "General Discussion"
    "Talk about anything related to our community" "#667eea" "chat" now
  let db2 := insertCategorySeed db1 "Announcements"
    "Important updates and news" "#f56565" "megaphone" now
  let db3 := insertCategorySeed db2 "Help & Support"
    "Get help from the community" "#48bb78" "help-circle" now
  let db4 := insertCategorySeed db3 "Feature Requests"
    "Suggest new features and improvements" "#ed8936" "lightbulb" now
  if db4.users.any (fun u => u.username == "admin") then db4
  else
    { db4 with
      users := db4.users ++
        [⟨db4.nextUserId, "admin", "admin@nexus.com", bcryptHash "admin123",
          none, some "Forum Administrator", now, now⟩],
      nextUserId := db4.nextUserId + 1 }

/-- Response body of a successful `POST /api/register`. -/
structure RegisterOk where
  id : Nat
  username : String
  email : String
  token : Token
deriving DecidableEq

/-- Handler of `POST /api/register`: hash the password, `INSERT INTO users`;
a violation of the unique constraints on `username` or `email` raises and is
reported as HTTP 400 with the raw message. -/
def register (db : DB) (username email password : String) (now : Nat) :
    ApiResult RegisterOk × DB :=
  if db.users.any (fun u => u.username == username || u.email == email) then
    (.err 400 "duplicate key value violates unique constraint", db)
  else
    let uid := db.nextUserId
    (.ok ⟨uid, username, email, jwtSign uid username⟩,
     { db with
       users := db.users ++ [⟨uid, username, email, bcryptHash password, none, none, now, now⟩],
       nextUserId := uid + 1 })

/-- Response body of a successful `POST /api/login`. -/
structure LoginOk where
  id : Nat
  username : String
  email : String
  avatar_url : Option String
  bio : Option String
  token : Token
deriving DecidableEq

/-- Handler of `POST /api/login`: `SELECT * FROM users WHERE username = $1
OR email = $1`, 401 when no row or the hash comparison fails, otherwise
`UPDATE users SET last_seen = CURRENT_TIMESTAMP WHERE id = $1` and the user
object plus token. -/
def login (db : DB) (identifier password : String) (now : Nat) :
    ApiResult LoginOk × DB :=
  match db.users.find? (fun u => u.username == identifier || u.email == identifier) with
  | none => (.err 401 "Invalid credentials", db)
  | some u =>
    if bcryptCompare password u.password_hash then
      (.ok ⟨u.id, u.username, u.email, u.avatar_url, u.bio, jwtSign u.id u.username⟩,
       { db with
         users := db.users.map (fun v => if v.id == u.id then { v with last_seen := now } else v) })
    else
      (.err 401 "Invalid credentials", db)

/-- Enriched row returned by `GET /api/topics/:id`: the topic joined with
its author (inner join) and its category (left join). -/
structure TopicDetailRow where
  topic : TopicRow
  username : String
  avatar_url : Option String
  user_bio : Option String
  category_name : Option String
  category_color : Option String
deriving DecidableEq

/-- Effect of `UPDATE topics SET views = views + 1 WHERE id = $1`: every
topic row matching the `WHERE` clause gets its counter bumped; when none
matches the statement succeeds without touching anything. -/
def bumpViews (tid : Nat) (db : DB) : DB :=
  { db with
    topics := db.topics.map
      (fun (t : TopicRow) => if t.id == tid then { t with views := t.views + 1 } else t) }

/-- Read-only part of `GET /api/topics/:id`: the topic joined with its
author (inner join) and category (left join); an empty result is HTTP
404. -/
def getTopicQuery (db : DB) (tid : Nat) : ApiResult TopicDetailRow :=
  match db.topics.find? (fun t => t.id == tid) with
  | none => .err 404 "Topic not found"
  | some t =>
    match db.users.find? (fun u => u.id == t.user_id) with
    | none => .err 404 "Topic not found"
    | some u =>
      let c := t.category_id.bind (fun cid => db.categories.find? (fun cr => cr.id == cid))
      .ok ⟨t, u.username, u.avatar_url, u.bio, c.map (·.name), c.map (·.color)⟩

/-- Handler of `GET /api/topics/:id`: first the unconditional `UPDATE` of
the view counter, then the join query against the updated store. -/
def getTopic (db : DB) (tid : Nat) : ApiResult TopicDetailRow × DB :=
  (getTopicQuery (bumpViews tid db) tid, bumpViews tid db)

/-- Repeated sequential fetches of one topic, collecting the responses. -/
def getTopicN (db : DB) (tid : Nat) : Nat → List (ApiResult TopicDetailRow) × DB
  | 0 => ([], db)
  | n + 1 =>
    let r := getTopic db tid
    let rest := getTopicN r.2 tid n
    (r.1 :: rest.1, rest.2)

/-- Enriched row of the `GET /api/topics` listing: topic joined with author
(inner join), category (left join) and the aggregates over its posts. -/
structure TopicListRow where
  topic : TopicRow
  username : String
  avatar_url : Option String
  category_name : Option String
  category_color : Option String
  post_count : Nat
  last_post_at : Option Nat
deriving DecidableEq

/-- Join and aggregation of the topic-listing query for one topic row; the
inner join with `users` drops the row when the author id resolves to no
user. -/
def enrichTopic (db : DB) (t : TopicRow) : Option TopicListRow :=
  match db.users.find? (fun u => u.id == t.user_id) with
  | none => none
  | some u =>
    let c := t.category_id.bind (fun cid => db.categories.find? (fun cr => cr.id == cid))
    let tposts := db.posts.filter (fun p => p.topic_id == some t.id)
    some ⟨t, u.username, u.avatar_url, c.map (·.name), c.map (·.color),
      tposts.length, (tposts.map (·.created_at)).max?⟩

/-- Output order of `ORDER BY t.is_pinned DESC, t.created_at DESC`: pinned
rows first, inside each pin class newest first. -/
def topicBefore (a b : TopicListRow) : Bool :=
  (a.topic.is_pinned && !b.topic.is_pinned) ||
    (a.topic.is_pinned == b.topic.is_pinned && decide (b.topic.created_at ≤ a.topic.created_at))

/-- Rows of the topic listing before `LIMIT`/`OFFSET`: the optional
`WHERE t.category_id = $1` filter, the joins/aggregates, and the sort. -/
def listTopicsRows (db : DB) (category : Option Nat) : List TopicListRow :=
  let base :=
    match category with
    | some c => db.topics.filter (fun (t : TopicRow) => t.category_id == some c)
    | none => db.topics
  (base.filterMap (enrichTopic db)).mergeSort topicBefore

/-- Handler of `GET /api/topics`: query parameters default to `page = 1`,
`limit = 20`; `offset = (page - 1) * limit` is computed in JavaScript
arithmetic, so `page = 0` produces a negative offset which Postgres rejects
(surfaced as HTTP 500 by the catch). -/
def listTopics (db : DB) (category : Option Nat) (pageQ limitQ : Option Nat) :
    ApiResult (List TopicListRow) :=
  let page := pageQ.getD 1
  let limit := limitQ.getD 20
  let offset : Int := ((page : Int) - 1) * (limit : Int)
  if offset < 0 then
    .err 500 "OFFSET must not be negative"
  else
    .ok (((listTopicsRows db category).drop offset.toNat).take limit)

/-- Handler of `POST /api/topics`: a single `INSERT ... RETURNING *` with
`user_id || 1`; a foreign-key violation (author or category absent) raises
and is reported as HTTP 400. -/
def createTopic (db : DB) (title content : String) (category_id user_id : Option Nat)
    (now : Nat) : ApiResult TopicRow × DB :=
  let uid := jsOr user_id 1
  let fkOk := db.users.any (fun u => u.id == uid) &&
    (match category_id with
     | none => true
     | some c => db.categories.any (fun cr => cr.id == c))
  if fkOk then
    let row : TopicRow := ⟨db.nextTopicId, title, content, uid, category_id,
      0, false, false, now, now⟩
    (.ok row, { db with topics := db.topics ++ [row], nextTopicId := db.nextTopicId + 1 })
  else
    (.err 400 "insert into topics violates foreign key constraint", db)

/-- Handler of `POST /api/posts`: `INSERT ... RETURNING *` with
`user_id || 1`, then `UPDATE topics SET updated_at = CURRENT_TIMESTAMP WHERE
id = $1`; a foreign-key violation on the insert raises first, reported as
HTTP 400. -/
def createPost (db : DB) (content : String) (topic_id user_id parent_id : Option Nat)
    (now : Nat) : ApiResult PostRow × DB :=
  let uid := jsOr user_id 1
  let fkOk := db.users.any (fun u => u.id == uid) &&
    (match topic_id with
     | none => true
     | some tid => db.topics.any (fun t => t.id == tid)) &&
    (match parent_id with
     | none => true
     | some pid => db.posts.any (fun p => p.id == pid))
  if fkOk then
    let row : PostRow := ⟨db.nextPostId, content, topic_id, uid, parent_id, 0, now, now⟩
    (.ok row,
     { db with
       posts := db.posts ++ [row],
       nextPostId := db.nextPostId + 1,
       topics := db.topics.map
         (fun t => if topic_id == some t.id then { t with updated_at := now } else t) })
  else
    (.err 400 "insert into posts violates foreign key constraint", db)

/-- Response body of `POST /api/posts/:id/like`. -/
structure LikedResp where
  liked : Bool
deriving DecidableEq

/-- Does a Like row for this (user, post) pair exist? -/
def likeRowExists (db : DB) (uid pid : Nat) : Bool :=
  db.likes.any (fun l => l.user_id == uid && l.post_id == pid)

/-- Handler of `POST /api/posts/:id/like`: `SELECT * FROM likes WHERE
user_id = $1 AND post_id = $2` with `user_id || 1`; when a row exists,
`DELETE` it and decrement the `likes` column of the post; otherwise `INSERT` it
(checking the foreign keys on `user_id` and `post_id`, whose violation
raises and is reported as HTTP 500 by the catch) and increment the
counter. -/
def toggleLike (db : DB) (post_id : Nat) (user_id : Option Nat) (now : Nat) :
    ApiResult LikedResp × DB :=
  let uid := jsOr user_id 1
  if likeRowExists db uid post_id then
    (.ok ⟨false⟩,
     { db with
       likes := db.likes.filter (fun l => !(l.user_id == uid && l.post_id == post_id)),
       posts := db.posts.map
         (fun p => if p.id == post_id then { p with likes := p.likes - 1 } else p) })
  else
    if db.users.any (fun u => u.id == uid) && db.posts.any (fun p => p.id == post_id) then
      (.ok ⟨true⟩,
       { db with
         likes := db.likes ++ [⟨db.nextLikeId, uid, post_id, now⟩],
         nextLikeId := db.nextLikeId + 1,
         posts := db.posts.map
           (fun p => if p.id == post_id then { p with likes := p.likes + 1 } else p) })
    else
      (.err 500 "insert into likes violates foreign key constraint", db)

/-- Body of the `GET /api/health` response. -/
structure HealthBody where
  status : String
  database : String
  categories : Option Nat
  error : Option String
deriving DecidableEq

/-- Handler of `GET /api/health`: `SELECT COUNT(*) FROM categories`; the
outcome of that query is the `dbError` argument (`none` means the query
succeeded).  Both branches answer with `res.json`, i.e. HTTP 200; the
failure is visible only in the body. -/
def healthHandler (db : DB) (dbError : Option String) : Nat × HealthBody :=
  match dbError with
  | some e => (200, ⟨"unhealthy", "error", none, some e⟩)
  | none => (200, ⟨"healthy", "connected", some db.categories.length, none⟩)

/-- One API request, with the `CURRENT_TIMESTAMP` each mutating handler
would observe baked into the constructor. -/
inductive Op where
  | registerOp (username email password : String) (now : Nat)
  | loginOp (identifier password : String) (now : Nat)
  | healthOp
  | listCategoriesOp
  | listTopicsOp (category : Option Nat) (pageQ limitQ : Option Nat)
  | getTopicOp (tid : Nat)
  | createTopicOp (title content : String) (category_id user_id : Option Nat) (now : Nat)
  | listPostsOp (tid : Nat)
  | createPostOp (content : String) (topic_id user_id parent_id : Option Nat) (now : Nat)
  | toggleLikeOp (post_id : Nat) (user_id : Option Nat) (now : Nat)
  | statsOp

/-- Effect of one request on the store; the read-only endpoints
(`/api/health`, `/api/categories`, `/api/topics`, `/api/topics/:id/posts`,
`/api/stats`) leave it unchanged. -/
def applyOp (db : DB) : Op → DB
  | .registerOp u e p now => (register db u e p now).2
  | .loginOp i p now => (login db i p now).2
  | .healthOp => db
  | .listCategoriesOp => db
  | .listTopicsOp _ _ _ => db
  | .getTopicOp tid => (getTopic db tid).2
  | .createTopicOp t c cid uid now => (createTopic db t c cid uid now).2
  | .listPostsOp _ => db
  | .createPostOp c tid uid pid now => (createPost db c tid uid pid now).2
  | .toggleLikeOp pid uid now => (toggleLike db pid uid now).2
  | .statsOp => db

/-- Store reached from a freshly initialized database by a sequence of API
requests. -/
def runOps (ops : List Op) : DB :=
  List.foldl applyOp (initDB emptyDB 0) ops

/-! ## Store invariants -/

/-- Two Like rows respect the `UNIQUE(user_id, post_id)` constraint. -/
def likesDistinct (a b : LikeRow) : Prop :=
  a.user_id ≠ b.user_id ∨ a.post_id ≠ b.post_id

/-- Invariant of the store maintained by every request handler: the
uniqueness constraint on `likes`, the agreement of the denormalized
`posts.likes` counter with the Like rows, the foreign key from `likes` to
`posts`, and freshness of the `posts` serial sequence. -/
structure Inv (db : DB) : Prop where
  uniq : db.likes.Pairwise likesDistinct
  counts : ∀ p ∈ db.posts, p.likes = ((db.likes.countP (fun l => l.post_id == p.id) : Nat) : Int)
  likesFK : ∀ l ∈ db.likes, ∃ p ∈ db.posts, p.id = l.post_id
  postsLt : ∀ p ∈ db.posts, p.id < db.nextPostId

/-- Transfer of the invariant along a step that does not touch `likes` or
`posts` and does not decrease the posts sequence. -/
theorem Inv.of_eq {db db2 : DB} (h : Inv db) (hl : db2.likes = db.likes)
    (hp : db2.posts = db.posts) (hn : db.nextPostId ≤ db2.nextPostId) : Inv db2 := by
  refine ⟨hl ▸ h.uniq, ?_, ?_, ?_⟩
  · intro p hmem
    rw [hp] at hmem
    rw [hl]
    exact h.counts p hmem
  · intro l hmem
    rw [hl] at hmem
    rw [hp]
    exact h.likesFK l hmem
  · intro p hmem
    rw [hp] at hmem
    exact Nat.lt_of_lt_of_le (h.postsLt p hmem) hn

/-- Counting occurrences of one (user, post) pair in a list of Like rows
that respects the uniqueness constraint gives at most one. -/
theorem countP_pair_le_one (l : List LikeRow) (hp : l.Pairwise likesDistinct)
    (uid pid : Nat) :
    l.countP (fun r => r.user_id == uid && r.post_id == pid) ≤ 1 := by
  induction l with
  | nil => simp
  | cons a t ih =>
    rcases List.pairwise_cons.mp hp with ⟨ha, ht⟩
    by_cases hq : (a.user_id == uid && a.post_id == pid) = true
    · have h0 : t.countP (fun r => r.user_id == uid && r.post_id == pid) = 0 := by
        rw [List.countP_eq_zero]
        intro b hb hqb
        simp only [Bool.and_eq_true, beq_iff_eq] at hq hqb
        rcases ha b hb with hne | hne
        · exact hne (hq.1.trans hqb.1.symm)
        · exact hne (hq.2.trans hqb.2.symm)
      simp [List.countP_cons, hq, h0]
    · simpa [List.countP_cons, hq] using ih ht

/-- When the pair is present, the count is exactly one. -/
theorem countP_pair_eq_one (l : List LikeRow) (hp : l.Pairwise likesDistinct)
    (uid pid : Nat)
    (hx : l.any (fun r => r.user_id == uid && r.post_id == pid) = true) :
    l.countP (fun r => r.user_id == uid && r.post_id == pid) = 1 := by
  have hle := countP_pair_le_one l hp uid pid
  have hpos : 0 < l.countP (fun r => r.user_id == uid && r.post_id == pid) := by
    rw [List.countP_pos_iff]
    simpa using List.any_eq_true.mp hx
  omega

/-- Deleting the Like rows of one (user, post) pair removes exactly the
pair count from the per-post tally: tally of the filtered list, plus the
pair count when the post of the pair is the tallied post, gives the original
tally. -/
theorem countP_filter_not_pair (l : List LikeRow) (uid pid qid : Nat) :
    (l.filter (fun r => !(r.user_id == uid && r.post_id == pid))).countP
        (fun r => r.post_id == qid) +
      (if pid = qid then l.countP (fun r => r.user_id == uid && r.post_id == pid) else 0) =
      l.countP (fun r => r.post_id == qid) := by
  induction l with
  | nil => simp
  | cons a t ih =>
    by_cases hu : (a.user_id == uid) = true <;>
      by_cases hq : (a.post_id == pid) = true <;>
      by_cases hr : (a.post_id == qid) = true <;>
      by_cases he : pid = qid <;>
      simp_all [List.countP_cons, List.filter_cons, beq_iff_eq] <;>
      omega

/-- The `register` handler touches only `users` and its sequence. -/
theorem inv_register (db : DB) (u e p : String) (now : Nat) (h : Inv db) :
    Inv (register db u e p now).2 := by
  unfold register
  split
  · exact h
  · exact h.of_eq rfl rfl (Nat.le_refl _)

/-- The `login` handler touches only `users`. -/
theorem inv_login (db : DB) (i p : String) (now : Nat) (h : Inv db) :
    Inv (login db i p now).2 := by
  unfold login
  split
  · exact h
  · split
    · exact h.of_eq rfl rfl (Nat.le_refl _)
    · exact h

/-- The `getTopic` handler touches only `topics`. -/
theorem inv_getTopic (db : DB) (tid : Nat) (h : Inv db) :
    Inv (getTopic db tid).2 :=
  h.of_eq rfl rfl (Nat.le_refl _)

/-- The `createTopic` handler touches only `topics` and its sequence. -/
theorem inv_createTopic (db : DB) (t c : String) (cid uid : Option Nat) (now : Nat)
    (h : Inv db) : Inv (createTopic db t c cid uid now).2 := by
  simp only [createTopic]
  split
  · exact h.of_eq rfl rfl (Nat.le_refl _)
  · exact h

/-- The `createPost` handler adds a post whose counter starts at the true
(zero) number of Like rows referencing it. -/
theorem inv_createPost (db : DB) (c : String) (tid uid pid : Option Nat) (now : Nat)
    (h : Inv db) : Inv (createPost db c tid uid pid now).2 := by
  simp only [createPost]
  split
  · refine ⟨h.uniq, ?_, ?_, ?_⟩
    · intro p hp
      rcases List.mem_append.mp hp with hold | hnew
      · exact h.counts p hold
      · simp only [List.mem_singleton] at hnew
        subst hnew
        have hz : db.likes.countP (fun l => l.post_id == db.nextPostId) = 0 := by
          rw [List.countP_eq_zero]
          intro l hl hple
          rcases h.likesFK l hl with ⟨q, hq, hqid⟩
          have hlt := h.postsLt q hq
          rw [beq_iff_eq] at hple
          omega
        simp [hz]
    · intro l hl
      rcases h.likesFK l hl with ⟨q, hq, hqid⟩
      exact ⟨q, List.mem_append_left _ hq, hqid⟩
    · intro p hp
      rcases List.mem_append.mp hp with hold | hnew
      · exact Nat.lt_succ_of_lt (h.postsLt p hold)
      · simp only [List.mem_singleton] at hnew
        subst hnew
        exact Nat.lt_succ_self _
  · exact h

/-- The `toggleLike` handler preserves the uniqueness of Like rows and
keeps the counter of every post equal to the number of its Like rows. -/
theorem inv_toggleLike (db : DB) (pid : Nat) (uidQ : Option Nat) (now : Nat)
    (h : Inv db) : Inv (toggleLike db pid uidQ now).2 := by
  simp only [toggleLike]
  split
  case isTrue hex =>
    refine ⟨h.uniq.sublist (List.filter_sublist _), ?_, ?_, ?_⟩
    · intro p' hp'
      rcases List.mem_map.mp hp' with ⟨p, hp, rfl⟩
      have hcnt := h.counts p hp
      have hone := countP_pair_eq_one db.likes h.uniq (jsOr uidQ 1) pid hex
      have hmain := countP_filter_not_pair db.likes (jsOr uidQ 1) pid p.id
      by_cases hpid : (p.id == pid) = true
      · have hpe : p.id = pid := beq_iff_eq.mp hpid
        rw [if_pos hpid]
        rw [if_pos hpe.symm, hone] at hmain
        have hge : 1 ≤ db.likes.countP (fun l => l.post_id == p.id) := by omega
        rw [hcnt]
        push_cast
        omega
      · have hpe : pid ≠ p.id := fun hc => hpid (beq_iff_eq.mpr hc.symm)
        rw [if_neg hpid]
        rw [if_neg hpe] at hmain
        rw [hcnt]
        push_cast
        omega
    · intro l hl
      have hl2 := List.mem_of_mem_filter hl
      rcases h.likesFK l hl2 with ⟨q, hq, hqid⟩
      refine ⟨if (q.id == pid) = true then { q with likes := q.likes - 1 } else q,
        List.mem_map_of_mem _ hq, ?_⟩
      by_cases hb : (q.id == pid) = true
      · rw [if_pos hb]
        exact hqid
      · rw [if_neg hb]
        exact hqid
    · intro p' hp'
      rcases List.mem_map.mp hp' with ⟨p, hp, rfl⟩
      have hlt := h.postsLt p hp
      by_cases hb : (p.id == pid) = true
      · rw [if_pos hb]
        exact hlt
      · rw [if_neg hb]
        exact hlt
  case isFalse hnex =>
    split
    case isTrue hfk =>
      have hnolike : ∀ l ∈ db.likes,
          (l.user_id == jsOr uidQ 1 && l.post_id == pid) = false := by
        intro l hl
        cases hb : (l.user_id == jsOr uidQ 1 && l.post_id == pid) with
        | false => rfl
        | true => exact absurd (List.any_eq_true.mpr ⟨l, hl, hb⟩) hnex
      refine ⟨?_, ?_, ?_, ?_⟩
      · rw [List.pairwise_append]
        refine ⟨h.uniq, List.pairwise_singleton _ _, ?_⟩
        intro a ha b hb
        simp only [List.mem_singleton] at hb
        subst hb
        rcases Bool.and_eq_false_iff.mp (hnolike a ha) with hu | hp2
        · exact Or.inl (beq_eq_false_iff_ne.mp hu)
        · exact Or.inr (beq_eq_false_iff_ne.mp hp2)
      · intro p' hp'
        rcases List.mem_map.mp hp' with ⟨p, hp, rfl⟩
        have hcnt := h.counts p hp
        by_cases hb : (p.id == pid) = true
        · have hpe : p.id = pid := beq_iff_eq.mp hb
          rw [if_pos hb]
          have h1 : List.countP (fun l => l.post_id == p.id)
              [(⟨db.nextLikeId, jsOr uidQ 1, pid, now⟩ : LikeRow)] = 1 := by
            simp [List.countP_cons, hpe]
          simp only [List.countP_append]
          rw [h1, hcnt]
          push_cast
          omega
        · have hne : ((pid : Nat) == p.id) = false := by
            rw [beq_eq_false_iff_ne]
            exact fun hc => hb (beq_iff_eq.mpr hc.symm)
          rw [if_neg hb]
          have h0 : List.countP (fun l => l.post_id == p.id)
              [(⟨db.nextLikeId, jsOr uidQ 1, pid, now⟩ : LikeRow)] = 0 := by
            simp [List.countP_cons, hne]
          simp only [List.countP_append]
          rw [h0, hcnt]
          push_cast
          omega
      · intro l hl
        rcases List.mem_append.mp hl with hold | hnew
        · rcases h.likesFK l hold with ⟨q, hq, hqid⟩
          refine ⟨if (q.id == pid) = true then { q with likes := q.likes + 1 } else q,
            List.mem_map_of_mem _ hq, ?_⟩
          by_cases hb : (q.id == pid) = true
          · rw [if_pos hb]
            exact hqid
          · rw [if_neg hb]
            exact hqid
        · simp only [List.mem_singleton] at hnew
          subst hnew
          have hpost : ∃ p ∈ db.posts, (p.id == pid) = true := by
            have := (Bool.and_eq_true _ _).mp hfk
            exact List.any_eq_true.mp this.2
          rcases hpost with ⟨q, hq, hqid⟩
          have hqe : q.id = pid := beq_iff_eq.mp hqid
          refine ⟨if (q.id == pid) = true then { q with likes := q.likes + 1 } else q,
            List.mem_map_of_mem _ hq, ?_⟩
          rw [if_pos hqid]
          exact hqe
      · intro p' hp'
        rcases List.mem_map.mp hp' with ⟨p, hp, rfl⟩
        have hlt := h.postsLt p hp
        by_cases hb : (p.id == pid) = true
        · rw [if_pos hb]
          exact hlt
        · rw [if_neg hb]
          exact hlt
    case isFalse => exact h

/-- The freshly initialized store satisfies the invariant: it has no posts
and no likes. -/
theorem inv_init : Inv (initDB emptyDB 0) := by
  have hl : (initDB emptyDB 0).likes = [] := rfl
  have hp : (initDB emptyDB 0).posts = [] := rfl
  refine ⟨?_, ?_, ?_, ?_⟩
  · rw [hl]
    exact List.Pairwise.nil
  · intro p hmem
    rw [hp] at hmem
    cases hmem
  · intro l hmem
    rw [hl] at hmem
    cases hmem
  · intro p hmem
    rw [hp] at hmem
    cases hmem

/-- Every request preserves the store invariant. -/
theorem inv_applyOp (db : DB) (op : Op) (h : Inv db) : Inv (applyOp db op) := by
  cases op with
  | registerOp u e p now => exact inv_register db u e p now h
  | loginOp i p now => exact inv_login db i p now h
  | healthOp => exact h
  | listCategoriesOp => exact h
  | listTopicsOp c p l => exact h
  | getTopicOp tid => exact inv_getTopic db tid h
  | createTopicOp t c cid uid now => exact inv_createTopic db t c cid uid now h
  | listPostsOp tid => exact h
  | createPostOp c tid uid pid now => exact inv_createPost db c tid uid pid now h
  | toggleLikeOp pid uid now => exact inv_toggleLike db pid uid now h
  | statsOp => exact h

/-- The invariant holds in every state reachable from a freshly
initialized store. -/
theorem inv_runOps (ops : List Op) : Inv (runOps ops) := by
  unfold runOps
  have h : ∀ (db : DB), Inv db → Inv (List.foldl applyOp db ops) := by
    induction ops with
    | nil => intro db h; exact h
    | cons op t ih => intro db h; exact ih _ (inv_applyOp db op h)
  exact h _ inv_init

/-! ## Claims -/

/-- Claim C1: for every sequence of API operations starting from a freshly
initialized store, after each operation there is at most one Like row per
(user, post) pair, and the denormalized `likes` counter of each post equals the
number of Like rows referencing that post.  (Every intermediate state of a
sequence is `runOps` of one of its prefixes, so quantifying over all
sequences covers the state after each operation.) -/
theorem c1_like_uniqueness_and_counter (ops : List Op) :
    (∀ uid pid, (runOps ops).likes.countP
        (fun l => l.user_id == uid && l.post_id == pid) ≤ 1) ∧
    ∀ p ∈ (runOps ops).posts,
      p.likes = (((runOps ops).likes.countP (fun l => l.post_id == p.id) : Nat) : Int) := by
  have h := inv_runOps ops
  exact ⟨fun uid pid => countP_pair_le_one _ h.uniq uid pid, h.counts⟩

/-- Witness for C1: in the concrete state reached by creating a topic, a
post under it and one like, the stored counter of that post (one) equals
the number of Like rows referencing it. -/
theorem c1_witness :
    (⟨1, "Reply", some 1, 1, none, 1, 3, 3⟩ : PostRow).likes =
      (((runOps [Op.createTopicOp "Hi" "Hello" (some 1) none 2,
          Op.createPostOp "Reply" (some 1) none none 3,
          Op.toggleLikeOp 1 none 4]).likes.countP
        (fun l => l.post_id == (⟨1, "Reply", some 1, 1, none, 1, 3, 3⟩ : PostRow).id) : Nat) : Int) :=
  (c1_like_uniqueness_and_counter
    [Op.createTopicOp "Hi" "Hello" (some 1) none 2,
     Op.createPostOp "Reply" (some 1) none none 3,
     Op.toggleLikeOp 1 none 4]).2
    ⟨1, "Reply", some 1, 1, none, 1, 3, 3⟩ (by decide)

/-- Claim C3, divergence witness: running `initDB` twice on an empty store does
not leave the state of a single run.  The seeded categories are inserted
again on the second run, because the `categories` table has no unique
constraint on `name`, so `ON CONFLICT DO NOTHING` never applies: after two
runs there are eight category rows and the name General Discussion occurs
twice.  Only the admin user, whose insert names the unique `username`
column, is not duplicated. -/
theorem c3_initdb_not_idempotent :
    (initDB (initDB emptyDB 0) 1).categories.length = 8 ∧
    (initDB (initDB emptyDB 0) 1).categories.countP
      (fun c => c.name == "General Discussion") = 2 ∧
    ((initDB (initDB emptyDB 0) 1).users.filter (fun u => u.username == "admin")).length = 1 ∧
    initDB (initDB emptyDB 0) 1 ≠ initDB emptyDB 0 := by
  refine ⟨rfl, rfl, rfl, ?_⟩
  decide

/-- Claim C9: the health endpoint always answers with HTTP 200; a failing
database query is reported only inside the body, as status unhealthy,
database error and the raw message. -/
theorem c9_health_always_200 (db : DB) (dbError : Option String) :
    (healthHandler db dbError).1 = 200 ∧
    (∀ msg, dbError = some msg →
      (healthHandler db dbError).2 = ⟨"unhealthy", "error", none, some msg⟩) ∧
    (dbError = none →
      (healthHandler db dbError).2 = ⟨"healthy", "connected", some db.categories.length, none⟩) := by
  refine ⟨?_, ?_, ?_⟩
  · cases dbError <;> rfl
  · intro msg hmsg
    subst hmsg
    rfl
  · intro hnone
    subst hnone
    rfl

/-- Witness for C9: a failing query on the freshly initialized store still
yields HTTP 200 with the unhealthy body. -/
theorem c9_witness :
    (healthHandler (initDB emptyDB 0) (some "connection refused")).1 = 200 ∧
    (healthHandler (initDB emptyDB 0) (some "connection refused")).2 =
      ⟨"unhealthy", "error", none, some "connection refused"⟩ :=
  ⟨(c9_health_always_200 (initDB emptyDB 0) (some "connection refused")).1,
   (c9_health_always_200 (initDB emptyDB 0) (some "connection refused")).2.1
     "connection refused" rfl⟩

/-- Claim C10: a request to create a topic, create a post or toggle a like whose
`user_id` field is absent, `null` or `0` (the falsy numbers of `user_id ||
1`) behaves exactly as the same request with `user_id = 1`, attributing the
operation to the admin user rather than rejecting it; in particular a
topic created this way is stored with `user_id = 1` whenever user 1
exists. -/
theorem c10_falsy_user_defaults_to_admin (db : DB) (uidQ : Option Nat)
    (h : uidQ = none ∨ uidQ = some 0) :
    jsOr uidQ 1 = 1 ∧
    (∀ title content cid now,
      createTopic db title content cid uidQ now = createTopic db title content cid (some 1) now) ∧
    (∀ content tid pid now,
      createPost db content tid uidQ pid now = createPost db content tid (some 1) pid now) ∧
    (∀ pid now, toggleLike db pid uidQ now = toggleLike db pid (some 1) now) ∧
    (∀ title content now, db.users.any (fun u => u.id == 1) = true →
      ∃ row, (createTopic db title content none uidQ now).1 = .ok row ∧ row.user_id = 1) := by
  rcases h with h | h <;> subst h
  · refine ⟨rfl, fun _ _ _ _ => rfl, fun _ _ _ _ => rfl, fun _ _ => rfl, ?_⟩
    intro title content now huser
    refine ⟨⟨db.nextTopicId, title, content, 1, none, 0, false, false, now, now⟩, ?_, rfl⟩
    simp only [createTopic, jsOr]
    rw [if_pos]
    simpa using huser
  · refine ⟨rfl, fun _ _ _ _ => rfl, fun _ _ _ _ => rfl, fun _ _ => rfl, ?_⟩
    intro title content now huser
    refine ⟨⟨db.nextTopicId, title, content, 1, none, 0, false, false, now, now⟩, ?_, rfl⟩
    simp only [createTopic, jsOr]
    rw [if_pos]
    simpa using huser

/-- Witness for C10: on the freshly initialized store, creating a topic
with an absent `user_id` stores it under the admin id 1. -/
theorem c10_witness :
    jsOr none 1 = 1 ∧
    toggleLike (initDB emptyDB 0) 1 none 4 = toggleLike (initDB emptyDB 0) 1 (some 1) 4 ∧
    ∃ row, (createTopic (initDB emptyDB 0) "Hi" "Hello" none none 2).1 = .ok row ∧
      row.user_id = 1 := by
  have h := c10_falsy_user_defaults_to_admin (initDB emptyDB 0) none (Or.inl rfl)
  exact ⟨h.1, h.2.2.2.1 1 4, h.2.2.2.2 "Hi" "Hello" 2 (by decide)⟩

/-- Claim C4: when some user already holds a username and an email, registering
again with that username (any email), or with that email (any username),
fails with HTTP 400 and stores no new user row. -/
theorem c4_register_duplicate_rejected (db : DB) (u : UserRow) (hu : u ∈ db.users)
    (username2 email2 password : String) (now : Nat) :
    (register db u.username email2 password now).1.httpStatus = 400 ∧
    (register db u.username email2 password now).2 = db ∧
    (register db username2 u.email password now).1.httpStatus = 400 ∧
    (register db username2 u.email password now).2 = db := by
  have h1 : db.users.any (fun v => v.username == u.username || v.email == email2) = true :=
    List.any_eq_true.mpr ⟨u, hu, by simp⟩
  have h2 : db.users.any (fun v => v.username == username2 || v.email == u.email) = true :=
    List.any_eq_true.mpr ⟨u, hu, by simp⟩
  unfold register
  rw [if_pos h1, if_pos h2]
  exact ⟨rfl, rfl, rfl, rfl⟩

/-- Witness for C4: on the freshly initialized store, registering a second
admin, or a different name under the admin email, is rejected with 400 and
leaves the store unchanged. -/
theorem c4_witness :
    (register (initDB emptyDB 0) "admin" "new@mail.com" "pw" 9).1.httpStatus = 400 ∧
    (register (initDB emptyDB 0) "admin" "new@mail.com" "pw" 9).2 = initDB emptyDB 0 ∧
    (register (initDB emptyDB 0) "someone" "admin@nexus.com" "pw" 9).1.httpStatus = 400 ∧
    (register (initDB emptyDB 0) "someone" "admin@nexus.com" "pw" 9).2 = initDB emptyDB 0 :=
  c4_register_duplicate_rejected (initDB emptyDB 0)
    ⟨1, "admin", "admin@nexus.com", bcryptHash "admin123", none,
      some "Forum Administrator", 0, 0⟩
    (by decide) "someone" "new@mail.com" "pw" 9

/-- Claim C5: login with an identifier matching no user, or with a password whose
hash comparison fails, answers 401 Invalid credentials and leaves the store
(hence the last-seen of every user) unchanged; login with correct credentials
returns the user object with a signed token and sets the last-seen of that user
to the current timestamp, which is at least its previous value whenever the
clock is at or past every stored timestamp. -/
theorem c5_login_behaviour (db : DB) (identifier password : String) (now : Nat) :
    (db.users.find? (fun v => v.username == identifier || v.email == identifier) = none →
      login db identifier password now = (.err 401 "Invalid credentials", db)) ∧
    (∀ u, db.users.find? (fun v => v.username == identifier || v.email == identifier) = some u →
      (bcryptCompare password u.password_hash = false →
        login db identifier password now = (.err 401 "Invalid credentials", db)) ∧
      (bcryptCompare password u.password_hash = true → u.last_seen ≤ now →
        (login db identifier password now).1 =
          .ok ⟨u.id, u.username, u.email, u.avatar_url, u.bio, jwtSign u.id u.username⟩ ∧
        ∃ v ∈ (login db identifier password now).2.users,
          v.id = u.id ∧ v.last_seen = now ∧ u.last_seen ≤ v.last_seen)) := by
  refine ⟨?_, ?_⟩
  · intro hn
    simp [login, hn]
  · intro u hf
    refine ⟨?_, ?_⟩
    · intro hc
      simp [login, hf, hc]
    · intro hc hle
      have heq : login db identifier password now =
          (.ok ⟨u.id, u.username, u.email, u.avatar_url, u.bio, jwtSign u.id u.username⟩,
           { db with users := db.users.map (fun v => if v.id == u.id then { v with last_seen := now } else v) }) := by
        simp [login, hf, hc]
      refine ⟨by rw [heq], ?_⟩
      refine ⟨{ u with last_seen := now }, ?_, rfl, rfl, hle⟩
      rw [heq]
      refine List.mem_map.mpr ⟨u, List.mem_of_find?_eq_some hf, ?_⟩
      rw [if_pos (by simp)]

/-- Witness for C5: on the freshly initialized store, a wrong admin
password yields 401 with no change, and the correct one updates the admin
last-seen to the login time. -/
theorem c5_witness :
    login (initDB emptyDB 0) "admin" "wrong" 7 =
      (.err 401 "Invalid credentials", initDB emptyDB 0) ∧
    (login (initDB emptyDB 0) "admin" "admin123" 7).1 =
      .ok ⟨1, "admin", "admin@nexus.com", none, some "Forum Administrator", jwtSign 1 "admin"⟩ ∧
    ∃ v ∈ (login (initDB emptyDB 0) "admin" "admin123" 7).2.users,
      v.id = 1 ∧ v.last_seen = 7 ∧ 0 ≤ v.last_seen := by
  have h := c5_login_behaviour (initDB emptyDB 0) "admin" "wrong" 7
  have h2 := c5_login_behaviour (initDB emptyDB 0) "admin" "admin123" 7
  have hadmin : (⟨1, "admin", "admin@nexus.com", bcryptHash "admin123", none,
      some "Forum Administrator", 0, 0⟩ : UserRow) ∈ (initDB emptyDB 0).users := by decide
  refine ⟨(h.2 ⟨1, "admin", "admin@nexus.com", bcryptHash "admin123", none,
      some "Forum Administrator", 0, 0⟩ (by decide)).1 (by decide), ?_, ?_⟩
  · exact ((h2.2 ⟨1, "admin", "admin@nexus.com", bcryptHash "admin123", none,
      some "Forum Administrator", 0, 0⟩ (by decide)).2 (by decide) (by decide)).1
  · exact ((h2.2 ⟨1, "admin", "admin@nexus.com", bcryptHash "admin123", none,
      some "Forum Administrator", 0, 0⟩ (by decide)).2 (by decide) (by decide)).2

/-- Searching for a topic id after the view-counter `UPDATE` finds the
updated image of whatever the search found before. -/
theorem find?_bumpViews (db : DB) (tid : Nat) :
    (bumpViews tid db).topics.find? (fun t => t.id == tid) =
      (db.topics.find? (fun t => t.id == tid)).map
        (fun t => if (t.id == tid) = true then { t with views := t.views + 1 } else t) := by
  show (db.topics.map _).find? _ = _
  rw [List.find?_map]
  have hcomp : ((fun t : TopicRow => t.id == tid) ∘
      (fun t : TopicRow => if (t.id == tid) = true then { t with views := t.views + 1 } else t)) =
      (fun t : TopicRow => t.id == tid) := by
    funext t
    simp only [Function.comp_apply]
    by_cases hb : (t.id == tid) = true
    · rw [if_pos hb]
    · rw [if_neg hb]
  rw [hcomp]

/-- Reduction of the single-topic query to its success row once both
lookups are known. -/
theorem getTopicQuery_eq_ok (db : DB) (tid : Nat) (t : TopicRow) (u : UserRow)
    (hf : db.topics.find? (fun x => x.id == tid) = some t)
    (hu : db.users.find? (fun v => v.id == t.user_id) = some u) :
    getTopicQuery db tid = .ok
      ⟨t, u.username, u.avatar_url, u.bio,
        (t.category_id.bind (fun cid => db.categories.find? (fun cr => cr.id == cid))).map (·.name),
        (t.category_id.bind (fun cid => db.categories.find? (fun cr => cr.id == cid))).map (·.color)⟩ := by
  unfold getTopicQuery
  rw [hf]
  show (match db.users.find? (fun v => v.id == t.user_id) with
    | none => ApiResult.err 404 "Topic not found"
    | some u =>
      let c := t.category_id.bind
        (fun cid => db.categories.find? (fun (cr : CategoryRow) => cr.id == cid))
      ApiResult.ok (⟨t, u.username, u.avatar_url, u.bio,
        c.map (fun (x : CategoryRow) => x.name),
        c.map (fun (x : CategoryRow) => x.color)⟩ : TopicDetailRow)) = _
  rw [hu]

/-- One fetch of an existing topic whose author exists: the topic row kept
its identity, its counter went up by one, the rest of the store is
untouched, and the response is the enriched row. -/
theorem getTopic_found (db : DB) (tid : Nat) (t0 : TopicRow)
    (hf : db.topics.find? (fun t => t.id == tid) = some t0)
    (hu : db.users.any (fun v => v.id == t0.user_id) = true) :
    (∃ t1, (getTopic db tid).2.topics.find? (fun t => t.id == tid) = some t1 ∧
      t1.views = t0.views + 1 ∧ t1.user_id = t0.user_id ∧ t1.id = t0.id) ∧
    (getTopic db tid).2.users = db.users ∧
    ∃ row, (getTopic db tid).1 = .ok row ∧ row.topic.id = tid := by
  have htid0 := List.find?_some hf
  have htid : (t0.id == tid) = true := htid0
  have hfind1 : (bumpViews tid db).topics.find? (fun t => t.id == tid) =
      some { t0 with views := t0.views + 1 } := by
    rw [find?_bumpViews, hf]
    show some (if (t0.id == tid) = true then { t0 with views := t0.views + 1 } else t0) = _
    rw [if_pos htid]
  obtain ⟨u, hfu⟩ : ∃ u, db.users.find? (fun v => v.id == t0.user_id) = some u := by
    have h1 : ∃ x ∈ db.users, (x.id == t0.user_id) = true := List.any_eq_true.mp hu
    exact Option.isSome_iff_exists.mp (List.find?_isSome.mpr h1)
  refine ⟨⟨{ t0 with views := t0.views + 1 }, hfind1, rfl, rfl, rfl⟩, rfl, ?_⟩
  have hfu2 : (bumpViews tid db).users.find?
      (fun v => v.id == ({ t0 with views := t0.views + 1 } : TopicRow).user_id) = some u := hfu
  have hresp := getTopicQuery_eq_ok (bumpViews tid db) tid
    { t0 with views := t0.views + 1 } u hfind1 hfu2
  exact ⟨_, hresp, beq_iff_eq.mp htid⟩

/-- Sequentially fetching an existing topic (with existing author) `n`
times adds exactly `n` to its view counter, keeps the user table unchanged,
and every response is the enriched topic row. -/
theorem getTopicN_adds (tid : Nat) (n : Nat) :
    ∀ (db : DB) (t0 : TopicRow),
      db.topics.find? (fun t => t.id == tid) = some t0 →
      db.users.any (fun v => v.id == t0.user_id) = true →
      (∃ t1, (getTopicN db tid n).2.topics.find? (fun t => t.id == tid) = some t1 ∧
        t1.views = t0.views + n ∧ t1.user_id = t0.user_id ∧ t1.id = t0.id) ∧
      (getTopicN db tid n).2.users = db.users ∧
      ∀ r ∈ (getTopicN db tid n).1, ∃ row, r = .ok row ∧ row.topic.id = tid := by
  induction n with
  | zero =>
    intro db t0 hf hu
    exact ⟨⟨t0, hf, rfl, rfl, rfl⟩, rfl, by intro r hr; cases hr⟩
  | succ n ih =>
    intro db t0 hf hu
    obtain ⟨⟨t1, hf1, hv1, huid1, hid1⟩, husers1, row, hrow, hrowid⟩ :=
      getTopic_found db tid t0 hf hu
    have hu1 : (getTopic db tid).2.users.any (fun v => v.id == t1.user_id) = true := by
      rw [husers1, huid1]
      exact hu
    obtain ⟨⟨t2, hf2, hv2, huid2, hid2⟩, husers2, hresp⟩ := ih (getTopic db tid).2 t1 hf1 hu1
    refine ⟨⟨t2, ?_, ?_, ?_, ?_⟩, ?_, ?_⟩
    · show ((getTopicN (getTopic db tid).2 tid n).2).topics.find? _ = _
      exact hf2
    · rw [hv2, hv1]
      omega
    · rw [huid2, huid1]
    · rw [hid2, hid1]
    · show (getTopicN (getTopic db tid).2 tid n).2.users = db.users
      rw [husers2, husers1]
    · intro r hr
      have hr2 : r = (getTopic db tid).1 ∨ r ∈ (getTopicN (getTopic db tid).2 tid n).1 := by
        simpa [getTopicN] using hr
      rcases hr2 with hr2 | hr2
      · exact ⟨row, hr2 ▸ hrow, hrowid⟩
      · exact hresp r hr2

/-- Fetching a nonexistent topic id: the `UPDATE` matches no row and the
query joins to nothing, so the handler answers 404 with the store exactly
as before. -/
theorem getTopic_absent (db : DB) (tid : Nat)
    (hnone : db.topics.any (fun t => t.id == tid) = false) :
    getTopic db tid = (.err 404 "Topic not found", db) := by
  have hnf : ∀ t ∈ db.topics, ¬((t.id == tid) = true) := by
    intro t ht hc
    have hany : db.topics.any (fun t => t.id == tid) = true := List.any_eq_true.mpr ⟨t, ht, hc⟩
    exact Bool.noConfusion (hany.symm.trans hnone)
  have hmap : bumpViews tid db = db := by
    show ({ db with topics := _ } : DB) = db
    have htop : db.topics.map
        (fun (t : TopicRow) => if (t.id == tid) = true then { t with views := t.views + 1 } else t) =
        db.topics := by
      have h1 : db.topics.map
          (fun (t : TopicRow) => if (t.id == tid) = true then { t with views := t.views + 1 } else t) =
          db.topics.map id :=
        List.map_congr_left (fun a ha => by
          show (if (a.id == tid) = true then { a with views := a.views + 1 } else a) = id a
          rw [if_neg (hnf a ha)]
          rfl)
      rw [h1, List.map_id]
    rw [htop]
  have hq : getTopicQuery db tid = .err 404 "Topic not found" := by
    unfold getTopicQuery
    rw [List.find?_eq_none.mpr hnf]
  show (getTopicQuery (bumpViews tid db) tid, bumpViews tid db) = _
  rw [hmap, hq]

/-- Claim C6: fetching an existing topic (whose author row exists) `n` times
sequentially increments its view counter by exactly `n` and every fetch
returns the enriched topic row; fetching a nonexistent topic id answers
HTTP 404 (Topic not found) and leaves the store, hence every view counter,
unchanged. -/
theorem c6_topic_views_increment (db : DB) (tid : Nat) (n : Nat) :
    (∀ t0, db.topics.find? (fun t => t.id == tid) = some t0 →
      db.users.any (fun v => v.id == t0.user_id) = true →
      (∃ t1, (getTopicN db tid n).2.topics.find? (fun t => t.id == tid) = some t1 ∧
        t1.views = t0.views + n ∧ t1.id = t0.id) ∧
      ∀ r ∈ (getTopicN db tid n).1, ∃ row, r = .ok row ∧ row.topic.id = tid) ∧
    (db.topics.any (fun t => t.id == tid) = false →
      getTopic db tid = (.err 404 "Topic not found", db)) := by
  refine ⟨?_, getTopic_absent db tid⟩
  intro t0 hf hu
  obtain ⟨⟨t1, hf1, hv1, _, hid1⟩, _, hresp⟩ := getTopicN_adds tid n db t0 hf hu
  exact ⟨⟨t1, hf1, hv1, hid1⟩, hresp⟩

/-- Deleting all rows matching a predicate leaves none matching it. -/
theorem any_filter_not {α : Type} (l : List α) (q : α → Bool) :
    (l.filter (fun a => !(q a))).any q = false := by
  rw [List.any_eq_false]
  intro a ha hq
  have hmem := List.mem_filter.mp ha
  rw [hq] at hmem
  exact Bool.noConfusion hmem.2

/-- Mapping an id-preserving function over posts does not change which ids
occur. -/
theorem any_id_map (l : List PostRow) (pid : Nat) (f : PostRow → PostRow)
    (hid : ∀ p, (f p).id = p.id) :
    (l.map f).any (fun p => p.id == pid) = l.any (fun p => p.id == pid) := by
  rw [List.any_map]
  congr 1
  funext p
  simp only [Function.comp_apply, hid]

/-- Decrementing and then incrementing the counter of the posts matching
one id is the identity. -/
theorem map_dec_inc (l : List PostRow) (pid : Nat) :
    ((l.map (fun p => if (p.id == pid) = true then { p with likes := p.likes - 1 } else p)).map
      (fun p => if (p.id == pid) = true then { p with likes := p.likes + 1 } else p)) = l := by
  rw [List.map_map]
  have h1 : l.map ((fun (p : PostRow) => if (p.id == pid) = true then { p with likes := p.likes + 1 } else p) ∘ (fun (p : PostRow) => if (p.id == pid) = true then { p with likes := p.likes - 1 } else p)) = l.map id := by
    apply List.map_congr_left
    intro p _
    simp only [Function.comp_apply]
    by_cases hb : (p.id == pid) = true
    · rw [if_pos hb]
      show (if (p.id == pid) = true then _ else _) = id p
      rw [if_pos hb]
      show ({ p with likes := p.likes - 1 + 1 } : PostRow) = p
      rw [Int.sub_add_cancel]
    · rw [if_neg hb, if_neg hb]
      rfl
  rw [h1, List.map_id]

/-- Incrementing and then decrementing the counter of the posts matching
one id is the identity. -/
theorem map_inc_dec (l : List PostRow) (pid : Nat) :
    ((l.map (fun p => if (p.id == pid) = true then { p with likes := p.likes + 1 } else p)).map
      (fun p => if (p.id == pid) = true then { p with likes := p.likes - 1 } else p)) = l := by
  rw [List.map_map]
  have h1 : l.map ((fun (p : PostRow) => if (p.id == pid) = true then { p with likes := p.likes - 1 } else p) ∘ (fun (p : PostRow) => if (p.id == pid) = true then { p with likes := p.likes + 1 } else p)) = l.map id := by
    apply List.map_congr_left
    intro p _
    simp only [Function.comp_apply]
    by_cases hb : (p.id == pid) = true
    · rw [if_pos hb]
      show (if (p.id == pid) = true then _ else _) = id p
      rw [if_pos hb]
      show ({ p with likes := p.likes + 1 - 1 } : PostRow) = p
      rw [Int.add_sub_cancel]
    · rw [if_neg hb, if_neg hb]
      rfl
  rw [h1, List.map_id]

/-- Evaluation of the like toggle when the Like row exists: delete plus
decrement. -/
theorem toggleLike_exists_eq (db : DB) (pid : Nat) (uidQ : Option Nat) (now : Nat)
    (hex : likeRowExists db (jsOr uidQ 1) pid = true) :
    toggleLike db pid uidQ now = (.ok ⟨false⟩,
      { db with
        likes := db.likes.filter (fun l => !(l.user_id == jsOr uidQ 1 && l.post_id == pid)),
        posts := db.posts.map (fun p => if (p.id == pid) = true then { p with likes := p.likes - 1 } else p) }) := by
  simp only [toggleLike]
  rw [if_pos hex]

/-- Evaluation of the like toggle when no Like row exists and both foreign
keys resolve: insert plus increment. -/
theorem toggleLike_absent_eq (db : DB) (pid : Nat) (uidQ : Option Nat) (now : Nat)
    (hex : likeRowExists db (jsOr uidQ 1) pid = false)
    (hfk : (db.users.any (fun u => u.id == jsOr uidQ 1) && db.posts.any (fun p => p.id == pid)) = true) :
    toggleLike db pid uidQ now = (.ok ⟨true⟩,
      { db with
        likes := db.likes ++ [⟨db.nextLikeId, jsOr uidQ 1, pid, now⟩],
        nextLikeId := db.nextLikeId + 1,
        posts := db.posts.map (fun p => if (p.id == pid) = true then { p with likes := p.likes + 1 } else p) }) := by
  simp only [toggleLike]
  rw [if_neg (by rw [hex]; exact Bool.false_ne_true), if_pos hfk]

/-- Claim C2, amended: for every user id that resolves to an existing user and
every existing post id, toggling the like twice restores the original
presence of the Like row and every post counter, and the first toggle
answers liked = true exactly when no Like row existed. -/
theorem c2_toggle_twice_restores (db : DB) (pid : Nat) (uidQ : Option Nat) (t1 t2 : Nat)
    (huser : db.users.any (fun u => u.id == jsOr uidQ 1) = true)
    (hpost : db.posts.any (fun p => p.id == pid) = true) :
    (toggleLike db pid uidQ t1).1 = .ok ⟨!likeRowExists db (jsOr uidQ 1) pid⟩ ∧
    likeRowExists (toggleLike (toggleLike db pid uidQ t1).2 pid uidQ t2).2 (jsOr uidQ 1) pid =
      likeRowExists db (jsOr uidQ 1) pid ∧
    (toggleLike (toggleLike db pid uidQ t1).2 pid uidQ t2).2.posts = db.posts := by
  have hid : ∀ p : PostRow,
      ((if (p.id == pid) = true then { p with likes := p.likes - 1 } else p) : PostRow).id = p.id := by
    intro p
    by_cases hb : (p.id == pid) = true
    · rw [if_pos hb]
    · rw [if_neg hb]
  have hid2 : ∀ p : PostRow,
      ((if (p.id == pid) = true then { p with likes := p.likes + 1 } else p) : PostRow).id = p.id := by
    intro p
    by_cases hb : (p.id == pid) = true
    · rw [if_pos hb]
    · rw [if_neg hb]
  cases hex : likeRowExists db (jsOr uidQ 1) pid with
  | true =>
    have h1 := toggleLike_exists_eq db pid uidQ t1 hex
    have hex1 : likeRowExists (toggleLike db pid uidQ t1).2 (jsOr uidQ 1) pid = false := by
      simp only [h1]
      exact any_filter_not db.likes _
    have hfk1 : ((toggleLike db pid uidQ t1).2.users.any (fun u => u.id == jsOr uidQ 1) &&
        (toggleLike db pid uidQ t1).2.posts.any (fun p => p.id == pid)) = true := by
      simp only [h1]
      rw [any_id_map db.posts pid _ hid, huser, hpost]
      rfl
    have h2 := toggleLike_absent_eq (toggleLike db pid uidQ t1).2 pid uidQ t2 hex1 hfk1
    refine ⟨?_, ?_, ?_⟩
    · simp only [h1, hex]
      rfl
    · rw [h2]
      simp only [h1]
      simp [likeRowExists, List.any_append]
    · rw [h2]
      simp only [h1]
      exact map_dec_inc db.posts pid
  | false =>
    have h1 := toggleLike_absent_eq db pid uidQ t1 hex (by rw [huser, hpost]; rfl)
    have hex1 : likeRowExists (toggleLike db pid uidQ t1).2 (jsOr uidQ 1) pid = true := by
      simp only [h1]
      simp [likeRowExists, List.any_append]
    have h2 := toggleLike_exists_eq (toggleLike db pid uidQ t1).2 pid uidQ t2 hex1
    refine ⟨?_, ?_, ?_⟩
    · simp only [h1, hex]
      rfl
    · rw [h2]
      simp only [h1]
      exact any_filter_not _ _
    · rw [h2]
      simp only [h1]
      exact map_inc_dec db.posts pid

/-- Concrete reachable store: the freshly initialized database after
creating one topic (id 1, in category 1, by the admin) and one post (id 1)
under it. -/
def dbW : DB := runOps [Op.createTopicOp "Hi" "Hello" (some 1) none 2,
  Op.createPostOp "Reply" (some 1) none none 3]

/-- Counterexample to C2 as stated: user id 2 does not exist in the
reachable store `dbW`, post id 1 does, no Like row for (2, 1) exists, yet
the first toggle does not return liked = true — the insert hits the foreign
key on `likes.user_id` and the handler answers HTTP 500. -/
theorem c2_counterexample :
    likeRowExists dbW 2 1 = false ∧
    dbW.posts.any (fun p => p.id == 1) = true ∧
    (toggleLike dbW 1 (some 2) 4).1 ≠ .ok ⟨true⟩ ∧
    (toggleLike dbW 1 (some 2) 4).1.httpStatus = 500 := by
  refine ⟨rfl, rfl, ?_, rfl⟩
  decide

/-- Witness for the amended C2: double-toggling the like of post 1 by the
admin (absent `user_id`, defaulting to 1) on `dbW` reports liked = true
first and restores the Like-row presence and all post counters. -/
theorem c2_witness :
    (toggleLike dbW 1 none 4).1 = .ok ⟨!likeRowExists dbW 1 1⟩ ∧
    likeRowExists (toggleLike (toggleLike dbW 1 none 4).2 1 none 5).2 1 1 =
      likeRowExists dbW 1 1 ∧
    (toggleLike (toggleLike dbW 1 none 4).2 1 none 5).2.posts = dbW.posts :=
  c2_toggle_twice_restores dbW 1 none 4 5 (by decide) (by decide)

/-- Witness for C6: fetching topic 1 of `dbW` three times leaves its view
counter at three, and fetching the nonexistent topic 5 answers 404 with the
store unchanged. -/
theorem c6_witness :
    (∃ t1, (getTopicN dbW 1 3).2.topics.find? (fun t => t.id == 1) = some t1 ∧
      t1.views = (⟨1, "Hi", "Hello", 1, some 1, 0, false, false, 2, 3⟩ : TopicRow).views + 3 ∧
      t1.id = (⟨1, "Hi", "Hello", 1, some 1, 0, false, false, 2, 3⟩ : TopicRow).id) ∧
    getTopic dbW 5 = (.err 404 "Topic not found", dbW) :=
  ⟨((c6_topic_views_increment dbW 1 3).1
      ⟨1, "Hi", "Hello", 1, some 1, 0, false, false, 2, 3⟩ (by decide) (by decide)).1,
   (c6_topic_views_increment dbW 5 0).2 (by decide)⟩

/-- Claim C8, amended: toggling a like on a post id that does not exist (and
hence, by the foreign key on `likes.post_id`, is referenced by no Like
row) fails with HTTP 500 — the foreign-key violation raised by the insert
is caught and surfaced as an internal error, not 404 — and the store is
unchanged. -/
theorem c8_like_missing_post (db : DB) (pid : Nat) (uidQ : Option Nat) (now : Nat)
    (hnone : db.posts.any (fun p => p.id == pid) = false)
    (hfk : ∀ l ∈ db.likes, l.post_id ≠ pid) :
    toggleLike db pid uidQ now =
      (.err 500 "insert into likes violates foreign key constraint", db) := by
  have hex : likeRowExists db (jsOr uidQ 1) pid = false := by
    unfold likeRowExists
    rw [List.any_eq_false]
    intro l hl hc
    rw [Bool.and_eq_true] at hc
    exact hfk l hl (beq_iff_eq.mp hc.2)
  simp only [toggleLike]
  rw [if_neg (by rw [hex]; exact Bool.false_ne_true)]
  rw [if_neg (fun hc => by
    rw [Bool.and_eq_true] at hc
    exact Bool.noConfusion (hnone.symm.trans hc.2))]

/-- Counterexample to C8 as stated: on the freshly initialized store no
post exists, and toggling a like on post id 1 answers HTTP 500, not the
claimed 404. -/
theorem c8_counterexample :
    (runOps []).posts.any (fun p => p.id == 1) = false ∧
    (toggleLike (runOps []) 1 none 4).1.httpStatus = 500 ∧
    (toggleLike (runOps []) 1 none 4).1.httpStatus ≠ 404 := by
  refine ⟨rfl, rfl, ?_⟩
  decide

/-- Witness for the amended C8: on the freshly initialized store, toggling
a like on the nonexistent post 1 yields the 500 error and no change. -/
theorem c8_witness :
    toggleLike (runOps []) 1 none 4 =
      (.err 500 "insert into likes violates foreign key constraint", runOps []) :=
  c8_like_missing_post (runOps []) 1 none 4 (by decide) (by decide)

/-- Transitivity of the pinned-first, newest-first output order. -/
theorem topicBefore_trans (a b c : TopicListRow) (h1 : topicBefore a b = true)
    (h2 : topicBefore b c = true) : topicBefore a c = true := by
  revert h1 h2
  unfold topicBefore
  cases ha : a.topic.is_pinned <;> cases hb : b.topic.is_pinned <;>
    cases hc : c.topic.is_pinned <;> simp <;> omega

/-- Totality of the pinned-first, newest-first output order. -/
theorem topicBefore_total (a b : TopicListRow) :
    (topicBefore a b || topicBefore b a) = true := by
  unfold topicBefore
  cases ha : a.topic.is_pinned <;> cases hb : b.topic.is_pinned <;> simp <;> omega

/-- The enriched listing row carries exactly the topic row it was built
from. -/
theorem enrichTopic_topic (db : DB) (t : TopicRow) (r : TopicListRow)
    (h : enrichTopic db t = some r) : r.topic = t := by
  unfold enrichTopic at h
  cases hfind : db.users.find? (fun u => u.id == t.user_id) with
  | none =>
    rw [hfind] at h
    exact Option.noConfusion h
  | some u =>
    rw [hfind] at h
    simp only [Option.some.injEq] at h
    rw [← h]

/-- The rows of the topic listing are sorted pinned-first, newest-first. -/
theorem listTopicsRows_sorted (db : DB) (category : Option Nat) :
    (listTopicsRows db category).Pairwise (fun a b => topicBefore a b = true) := by
  cases category with
  | none => exact List.sorted_mergeSort topicBefore_trans topicBefore_total _
  | some c => exact List.sorted_mergeSort topicBefore_trans topicBefore_total _

/-- Claim C7: for every store and every (category filter, page, limit) request
with `page ≥ 1`, the topic listing succeeds and returns exactly the slice
of the sorted (pinned first, then newest first), optionally
category-filtered rows starting at offset `(page - 1) * limit` of length
`min limit (remaining)` — at most `limit` rows, with no upper bound
enforced on `limit` itself. -/
theorem c7_list_topics_pagination (db : DB) (category : Option Nat) (page limit : Nat)
    (hp : 1 ≤ page) :
    ∃ rows, listTopics db category (some page) (some limit) = .ok rows ∧
      rows = ((listTopicsRows db category).drop ((page - 1) * limit)).take limit ∧
      rows.Pairwise (fun a b => topicBefore a b = true) ∧
      rows.length = min limit ((listTopicsRows db category).length - (page - 1) * limit) ∧
      ∀ c, category = some c → ∀ r ∈ rows, r.topic.category_id = some c := by
  have hoffeq : ((page : Int) - 1) * (limit : Int) = (((page - 1) * limit : Nat) : Int) := by
    have h2 : ((page : Int) - 1) = (((page - 1 : Nat) : Nat) : Int) := by omega
    rw [h2]
    exact_mod_cast rfl
  refine ⟨((listTopicsRows db category).drop ((page - 1) * limit)).take limit, ?_, rfl, ?_, ?_, ?_⟩
  · unfold listTopics
    simp only [Option.getD_some]
    rw [hoffeq]
    rw [if_neg (Int.not_lt.mpr (Int.natCast_nonneg _))]
    rw [Int.toNat_natCast]
  · exact (listTopicsRows_sorted db category).sublist
      ((List.take_sublist _ _).trans (List.drop_sublist _ _))
  · rw [List.length_take, List.length_drop]
  · intro c hc
    subst hc
    intro r hr
    have hsub : (((listTopicsRows db (some c)).drop ((page - 1) * limit)).take limit).Sublist
        (listTopicsRows db (some c)) :=
      (List.take_sublist _ _).trans (List.drop_sublist _ _)
    have hmem : r ∈ listTopicsRows db (some c) := hsub.subset hr
    have hmem2 : r ∈ (db.topics.filter
        (fun (t : TopicRow) => t.category_id == some c)).filterMap (enrichTopic db) :=
      List.mem_mergeSort.mp hmem
    rcases List.mem_filterMap.mp hmem2 with ⟨t, ht, he⟩
    have hcat0 := List.of_mem_filter ht
    have hcat : (t.category_id == some c) = true := hcat0
    rw [enrichTopic_topic db t r he]
    exact beq_iff_eq.mp hcat

/-- Witness for C7: the default listing request (page 1, limit 20, no
filter) on the concrete store `dbW` returns the first twenty sorted rows. -/
theorem c7_witness :
    ∃ rows, listTopics dbW none (some 1) (some 20) = .ok rows ∧
      rows = ((listTopicsRows dbW none).drop ((1 - 1) * 20)).take 20 ∧
      rows.Pairwise (fun a b => topicBefore a b = true) ∧
      rows.length = min 20 ((listTopicsRows dbW none).length - (1 - 1) * 20) ∧
      ∀ c, (none : Option Nat) = some c → ∀ r ∈ rows, r.topic.category_id = some c :=
  c7_list_topics_pagination dbW none 1 20 (by decide)

end NexusForum
